import Mathlib

/-!
Verification of the dom-screen repository: a shallow embedding of the
locator pipeline (screen_locator.ts), the assertion matchers and retry
wrapper (screen_matchers.ts), and the screen session (dom_screen.ts),
with theorems settling the specification's testable properties.

The DOM tree is modelled as an inductive of element and text nodes; an
element handle (`Elem`) is a root tree plus a child-index path, which
mirrors JavaScript reference identity of nodes within one rendered tree.
JavaScript `Set<Element>` values are modelled as insertion-ordered
duplicate-free lists.
-/

/-! ## String utilities (JavaScript semantics used by screen_locator.ts) -/

/-- Whitespace test matching the ASCII portion of the JavaScript regexp
class backslash-s and of `String.prototype.trim` (space, tab, newline,
carriage return, vertical tab, form feed). -/
def isWsChar (c : Char) : Bool :=
  c = ' ' || c = '\t' || c = '\n' || c = '\r' || c.toNat = 11 || c.toNat = 12

/-- State machine for the JavaScript `s.replace(/\s+/g, ' ')`: each maximal
run of whitespace characters is replaced by a single space. The boolean
records whether we are inside a whitespace run. -/
def collapseWsChars : Bool → List Char → List Char
  | _, [] => []
  | inRun, c :: rest =>
      if isWsChar c then
        if inRun then collapseWsChars true rest
        else ' ' :: collapseWsChars true rest
      else c :: collapseWsChars false rest

/-- Drops trailing whitespace characters. -/
def dropTrailWs (l : List Char) : List Char :=
  (l.reverse.dropWhile isWsChar).reverse

/-- JavaScript `String.prototype.trim` on a character list: drops leading
and trailing whitespace. -/
def jsTrimChars (l : List Char) : List Char :=
  dropTrailWs (l.dropWhile isWsChar)

/-- JavaScript `String.prototype.trim`. -/
def jsTrim (s : String) : String :=
  String.mk (jsTrimChars s.data)

/-- Embedding of `normalizeWhitespace` from screen_locator.ts:
`s.replace(/\s+/g, ' ').trim()`. -/
def normalizeWhitespace (s : String) : String :=
  String.mk (jsTrimChars (collapseWsChars false s.data))

/-- JavaScript `s.split(' ')` on a character list: splits on every single
space character, keeping empty fragments. The result is always nonempty. -/
def splitCharsOnSpace : List Char → List (List Char)
  | [] => [[]]
  | c :: rest =>
      let r := splitCharsOnSpace rest
      if c = ' ' then [] :: r
      else
        match r with
        | [] => [[c]]
        | t :: ts => (c :: t) :: ts

/-- JavaScript `s.split(' ')`. -/
def splitOnSpace (s : String) : List String :=
  (splitCharsOnSpace s.data).map String.mk

/-- Tests whether the second list is an initial segment of the first. -/
def listHasLead : List Char → List Char → Bool
  | _, [] => true
  | [], _ :: _ => false
  | c :: cs, p :: ps => c = p && listHasLead cs ps

/-- Tests whether `pat` occurs as a contiguous segment of `l`. -/
def listContainsSeg (l pat : List Char) : Bool :=
  listHasLead l pat ||
    match l with
    | [] => false
    | _ :: cs => listContainsSeg cs pat

/-- JavaScript `s.includes(sub)`: substring containment. -/
def strContains (s sub : String) : Bool :=
  listContainsSeg s.data sub.data

/-- JavaScript `s.toUpperCase()` restricted to ASCII case mapping. -/
def strUpper (s : String) : String :=
  String.mk (s.data.map Char.toUpper)

/-- JavaScript `s.toLowerCase()` restricted to ASCII case mapping. -/
def strLower (s : String) : String :=
  String.mk (s.data.map Char.toLower)

/-! ## DOM tree model -/

/-- A node of the rendered tree: either a text node or an element with a
tag name, an attribute list, a form value (meaningful for INPUT, TEXTAREA
and SELECT elements) and ordered children. This is the opaque node type of
the spec's node capability contract. -/
inductive DomNode : Type where
  | textNode (content : String)
  | elem (tag : String) (attrs : List (String × String)) (val : String)
      (children : List DomNode)

mutual

def DomNode.decEq : (a b : DomNode) → Decidable (a = b)
  | DomNode.textNode a, DomNode.textNode b =>
      if h : a = b then Decidable.isTrue (by rw [h]) else Decidable.isFalse (by simp [h])
  | DomNode.textNode _, DomNode.elem .. => Decidable.isFalse (by simp)
  | DomNode.elem .., DomNode.textNode _ => Decidable.isFalse (by simp)
  | DomNode.elem t1 a1 v1 c1, DomNode.elem t2 a2 v2 c2 =>
      if h1 : t1 = t2 then
        if h2 : a1 = a2 then
          if h3 : v1 = v2 then
            match DomNode.decEqList c1 c2 with
            | Decidable.isTrue h4 => Decidable.isTrue (by rw [h1, h2, h3, h4])
            | Decidable.isFalse h4 => Decidable.isFalse (by simp [h4])
          else Decidable.isFalse (by simp [h3])
        else Decidable.isFalse (by simp [h2])
      else Decidable.isFalse (by simp [h1])

def DomNode.decEqList : (xs ys : List DomNode) → Decidable (xs = ys)
  | [], [] => Decidable.isTrue rfl
  | [], _ :: _ => Decidable.isFalse (by simp)
  | _ :: _, [] => Decidable.isFalse (by simp)
  | x :: xs, y :: ys =>
      match DomNode.decEq x y, DomNode.decEqList xs ys with
      | Decidable.isTrue h1, Decidable.isTrue h2 => Decidable.isTrue (by rw [h1, h2])
      | Decidable.isFalse h1, _ => Decidable.isFalse (by simp [h1])
      | _, Decidable.isFalse h2 => Decidable.isFalse (by simp [h2])

end

instance : DecidableEq DomNode := DomNode.decEq

/-- Tag name of the node (DOM elements store it uppercased; text nodes
report the DOM placeholder name). -/
def DomNode.tagName : DomNode → String
  | DomNode.textNode _ => "#text"
  | DomNode.elem t _ _ _ => t

/-- Form value of the node (empty for text nodes). -/
def DomNode.value : DomNode → String
  | DomNode.textNode _ => ""
  | DomNode.elem _ _ v _ => v

/-- Embedding of `Element.getAttribute`: first attribute with the given
name, or `none` when absent. -/
def getAttr (n : DomNode) (name : String) : Option String :=
  match n with
  | DomNode.textNode _ => none
  | DomNode.elem _ attrs _ _ => (attrs.find? (fun a => a.1 = name)).map (·.2)

/-- Looks up the node reached from `n` by a list of child indices. -/
def subnodeAt : DomNode → List Nat → Option DomNode
  | n, [] => some n
  | DomNode.textNode _, _ :: _ => none
  | DomNode.elem _ _ _ cs, i :: rest =>
      match cs[i]? with
      | some c => subnodeAt c rest
      | none => none

mutual

/-- Document-order (pre-order) enumeration of the proper descendant
elements of a node, as (relative child-index path, node) pairs. This is the
order and content of `e.querySelectorAll('*')` on the node capability
contract. -/
def descWithNodes : DomNode → List (List Nat × DomNode)
  | DomNode.textNode _ => []
  | DomNode.elem _ _ _ cs => descList 0 cs

/-- Enumerates descendant elements contributed by a child list whose first
child has index `i`. -/
def descList : Nat → List DomNode → List (List Nat × DomNode)
  | _, [] => []
  | i, DomNode.textNode _ :: rest => descList (i + 1) rest
  | i, DomNode.elem t a v cs :: rest =>
      (([i], DomNode.elem t a v cs) ::
        (descWithNodes (DomNode.elem t a v cs)).map (fun p => (i :: p.1, p.2)))
        ++ descList (i + 1) rest

end

/-- An element handle: a rendered root tree together with the child-index
path of the element inside it. Two handles are the same JavaScript object
exactly when root and path agree. -/
structure Elem : Type where
  root : DomNode
  path : List Nat
deriving DecidableEq

/-- The node the handle points at, when the path is valid. -/
def Elem.node? (e : Elem) : Option DomNode :=
  subnodeAt e.root e.path

/-- The node the handle points at, defaulting to an empty text node for an
invalid path (locator pipelines only ever produce valid handles). -/
def Elem.nodeD (e : Elem) : DomNode :=
  (e.node?).getD (DomNode.textNode "")

/-- Document-order proper descendant elements of a handle, with their
nodes: the embedding of `e.querySelectorAll('*')`. -/
def Elem.descendants (e : Elem) : List (Elem × DomNode) :=
  match e.node? with
  | some n => (descWithNodes n).map (fun p => (Elem.mk e.root (e.path ++ p.1), p.2))
  | none => []

/-- Selector matching of the node capability contract, modelled for the
simple selector forms the repository's tests exercise: `.name` matches by
class-attribute token, a leading hash matches by id attribute, and a bare
name matches the tag case-insensitively. -/
def matchesSelector (n : DomNode) (sel : String) : Bool :=
  match sel.data with
  | '.' :: rest => (splitOnSpace (((getAttr n "class")).getD "")).contains (String.mk rest)
  | '#' :: rest => ((getAttr n "id")).getD "" = String.mk rest
  | _ => DomNode.tagName n = strUpper sel

/-- Embedding of `e.querySelectorAll(selector)`: the proper descendant
elements matching the selector, in document order. -/
def Elem.queryAll (e : Elem) (selector : String) : List Elem :=
  (e.descendants.filter (fun d => matchesSelector d.2 selector)).map (·.1)

/-! ## Locator pipeline (screen_locator.ts) -/

/-- Adds an element to a JavaScript `Set` modelled as an insertion-ordered
duplicate-free list: re-adding an existing member is a no-op. -/
def addUnique {α : Type} [DecidableEq α] (l : List α) (x : α) : List α :=
  if x ∈ l then l else l ++ [x]

/-- Embedding of `matchDescendants` from screen_locator.ts: for every
element of the input set, scans its proper descendants in document order
and collects those satisfying the predicate. -/
def matchDescendants (prev : List Elem) (isMatch : DomNode → Bool) : List Elem :=
  prev.foldl
    (fun results e =>
      e.descendants.foldl
        (fun acc d => if isMatch d.2 then addUnique acc d.1 else acc) results)
    []

/-- Embedding of `matchQuerySelector` from screen_locator.ts: unions
`e.querySelectorAll(selector)` over the input set. -/
def matchQuerySelector (prev : List Elem) (selector : String) : List Elem :=
  prev.foldl (fun results e => (e.queryAll selector).foldl addUnique results) []

/-- The argument of `locateText` and `filterText`: a string (substring
containment) or a regular expression, the latter embedded as its source
text (for descriptions) together with its test function, regular-expression
evatuation being part of the host language. -/
inductive TextQuery : Type where
  | str (s : String)
  | regex (src : String) (test : String → Bool)

/-- Textual form of the query as JavaScript string interpolation renders
it (the regular expression case renders its source form). -/
def TextQuery.fmt : TextQuery → String
  | TextQuery.str s => s
  | TextQuery.regex src _ => src

/-- Concatenation of a list of strings, mirroring the `s += ...`
accumulation loop of `getNormalizedText`. -/
def concatAll : List String → String
  | [] => ""
  | s :: rest => s ++ concatAll rest

/-- Embedding of `getNormalizedText` from screen_locator.ts: the value for
text-input controls, otherwise the direct text-node children concatenated
(element children contribute nothing) and whitespace-normalized. -/
def getNormalizedText (node : DomNode) : String :=
  if DomNode.tagName node = "INPUT" || DomNode.tagName node = "TEXTAREA" then
    DomNode.value node
  else
    normalizeWhitespace
      (concatAll ((match node with
        | DomNode.textNode _ => []
        | DomNode.elem _ _ _ cs => cs).map
          (fun c => match c with
            | DomNode.textNode t => t
            | DomNode.elem _ _ _ _ => "")))

/-- Embedding of `matchText` from screen_locator.ts. -/
def matchText (prev : List Elem) (text : String) : List Elem :=
  matchDescendants prev (fun e => strContains (getNormalizedText e) text)

/-- Embedding of `matchRegExp` from screen_locator.ts. -/
def matchRegExp (prev : List Elem) (test : String → Bool) : List Elem :=
  matchDescendants prev (fun e => test (getNormalizedText e))

/-- The per-node role test used by `matchRole` in screen_locator.ts: the
role attribute (defaulted to the empty string) is split on single spaces,
every fragment is trimmed, and the role must equal one of the fragments. -/
def roleMatches (e : DomNode) (role : String) : Bool :=
  ((splitOnSpace (((getAttr e "role")).getD "")).map jsTrim).contains role

/-- Embedding of `matchRole` from screen_locator.ts. -/
def matchRole (prev : List Elem) (role : String) : List Elem :=
  matchDescendants prev (fun e => roleMatches e role)

/-- The per-element text test used by `filterText` in screen_locator.ts. -/
def textPred (s : TextQuery) (e : Elem) : Bool :=
  match s with
  | TextQuery.str str => strContains (getNormalizedText e.nodeD) str
  | TextQuery.regex _ test => test (getNormalizedText e.nodeD)

/-- Embedding of the module-level `filterText` function from
screen_locator.ts: keeps the members of the input set whose own normalized
text matches. -/
def filterTextFn (prev : List Elem) (s : TextQuery) : List Elem :=
  prev.foldl (fun results e => if textPred s e then addUnique results e else results) []

/-- Embedding of `isPrintable` from screen_locator.ts: key codes 33 to 126
are printable characters. -/
def isPrintable (keyCode : Nat) : Bool :=
  33 ≤ keyCode && keyCode < 127

/-- A keyboard event record: the produced key text and the legacy key
code. -/
structure KeyEvent : Type where
  key : String
  keyCode : Nat
deriving DecidableEq

/-- Modelled from the spec: the fixed key-event table `KeyPress` lives in
keypress.ts, which is not under src/. The table is modelled for the keys
whose behavior the spec pins down concretely — the printable key F (legacy
key code 70) and the control keys Enter (13) and Tab (9); the spec also
mentions arrow keys but src/ does not fix their key codes, so they are not
modelled. -/
def KeyPress : List (String × KeyEvent) :=
  [("F", ⟨"F", 70⟩), ("Enter", ⟨"Enter", 13⟩), ("Tab", ⟨"Tab", 9⟩)]

/-- Embedding of the TypeScript indexing `KeyPress[key]`. -/
def lookupKey (k : String) : Option KeyEvent :=
  (KeyPress.find? (fun p => p.1 = k)).map (·.2)

/-- The controlled-environment runner is an external collaborator (spec
section 1); the embedding carries it as an opaque handle. -/
def DomScreenAct : Type := String

instance : DecidableEq DomScreenAct := fun a b => String.decEq a b

/-- One chained step of a locator: a human-readable description and the
set transformation, exactly the `LocatorMatcher` record of
screen_locator.ts. -/
structure LocatorMatcher : Type where
  description : String
  matchFn : List Elem → List Elem

/-- Embedding of the `ScreenLocator` class state: the runner handle, the
root element and the ordered matcher chain. -/
structure ScreenLocator : Type where
  act : DomScreenAct
  root : Elem
  matchers : List LocatorMatcher

/-- Embedding of `ScreenLocator.of`. -/
def ScreenLocator.of (act : DomScreenAct) (element : Elem) : ScreenLocator :=
  ScreenLocator.mk act element []

/-- Embedding of the private `chainLocator` method: a fresh locator whose
matcher list is a copy of the old one with the new step appended. -/
def ScreenLocator.chainLocator (L : ScreenLocator) (description : String)
    (m : List Elem → List Elem) : ScreenLocator :=
  ScreenLocator.mk L.act L.root (L.matchers ++ [LocatorMatcher.mk description m])

/-- Embedding of `ScreenLocator.locate`: the designed no-op on the empty
selector, otherwise a chained query-selector step. -/
def ScreenLocator.locate (L : ScreenLocator) (selector : String) : ScreenLocator :=
  if selector = "" then L
  else L.chainLocator ("locate(" ++ selector ++ ")")
    (fun prev => matchQuerySelector prev selector)

/-- Embedding of `ScreenLocator.filterText`. -/
def ScreenLocator.filterText (L : ScreenLocator) (s : TextQuery) : ScreenLocator :=
  L.chainLocator ("filterText(" ++ TextQuery.fmt s ++ ")")
    (fun prev => filterTextFn prev s)

/-- Embedding of `ScreenLocator.locateRole`. -/
def ScreenLocator.locateRole (L : ScreenLocator) (role : String) : ScreenLocator :=
  L.chainLocator ("locateRole(" ++ role ++ ")") (fun prev => matchRole prev role)

/-- Embedding of `ScreenLocator.locateText`, dispatching on the query
kind exactly as the source dispatches on `instanceof RegExp`. -/
def ScreenLocator.locateText (L : ScreenLocator) (s : TextQuery) : ScreenLocator :=
  match s with
  | TextQuery.regex src test =>
      L.chainLocator ("locateText(regexp: " ++ src ++ ")")
        (fun prev => matchRegExp prev test)
  | TextQuery.str str =>
      L.chainLocator ("locateText(" ++ str ++ ")") (fun prev => matchText prev str)

/-- The body of the `first()` step with its error branch made explicit:
an empty input yields the empty set, otherwise the head of the iteration
order is taken and only a missing head would reach the error. -/
def firstStepChecked (prev : List Elem) : Except String (List Elem) :=
  if prev.length = 0 then Except.ok []
  else
    match prev.head? with
    | none => Except.error "No elements found"
    | some e => Except.ok [e]

/-- The total set transformation used for the `first()` step; its error
branch is proven unreachable below. -/
def firstStep (prev : List Elem) : List Elem :=
  match firstStepChecked prev with
  | Except.ok r => r
  | Except.error _ => []

/-- Embedding of `ScreenLocator.first`. -/
def ScreenLocator.first (L : ScreenLocator) : ScreenLocator :=
  L.chainLocator "first()" firstStep

/-- Embedding of `ScreenLocator.describe`. -/
def ScreenLocator.describe (L : ScreenLocator) : List String :=
  L.matchers.map (·.description)

/-- Embedding of `ScreenLocator.formatDescription`. -/
def ScreenLocator.formatDescription (L : ScreenLocator) : String :=
  String.intercalate " -> " L.describe

/-- Embedding of `ScreenLocator.allElements`: the singleton of the root
evaluated through every matcher in order. -/
def ScreenLocator.allElements (L : ScreenLocator) : List Elem :=
  L.matchers.foldl (fun found m => m.matchFn found) [L.root]

/-- Embedding of `ScreenLocator.element`, with thrown errors as `Except`
values. -/
def ScreenLocator.element (L : ScreenLocator) : Except String Elem :=
  match L.allElements with
  | [] => Except.error ("no elements found but expected one: " ++ L.formatDescription)
  | [e] => Except.ok e
  | _ :: _ :: _ =>
      Except.error ("multiple elements found but expected one: " ++ L.formatDescription)

/-- Embedding of `ScreenLocator.click`: the cardinality gate of the
source, returning the clicked element (the dispatched events act on the
external tree). -/
def ScreenLocator.click (L : ScreenLocator) : Except String Elem :=
  match L.allElements with
  | [] => Except.error ("no elements found to click: " ++ L.formatDescription)
  | [e] => Except.ok e
  | _ :: _ :: _ =>
      Except.error ("multiple elements found to click: " ++ L.formatDescription)

/-- Tag test of the `instanceof HTMLInputElement, HTMLTextAreaElement,
HTMLSelectElement` guards in `press` and `fill`. -/
def isFormTag (e : Elem) : Bool :=
  DomNode.tagName e.nodeD = "INPUT" || DomNode.tagName e.nodeD = "TEXTAREA" ||
    DomNode.tagName e.nodeD = "SELECT"

/-- Value of the element a handle points at. -/
def Elem.value (e : Elem) : String :=
  DomNode.value e.nodeD

/-- Embedding of `ScreenLocator.press`: the cardinality gate, the
form-control guard, the key-table lookup, and the value update performed
by `setElementValue` (printable keys append their character, control keys
leave the value unchanged). Returns the pressed element and its new
value. -/
def ScreenLocator.press (L : ScreenLocator) (key : String) : Except String (Elem × String) :=
  match L.allElements with
  | [] => Except.error ("no elements found to press: " ++ L.formatDescription)
  | [e] =>
      if ¬ (isFormTag e = true) then
        Except.error ("cannot press key on tag: " ++ strLower (DomNode.tagName e.nodeD))
      else
        match lookupKey key with
        | none => Except.error ("unknown key: " ++ key ++ "; maybe not yet added to KeyPress?")
        | some keyEv =>
            Except.ok (e, if isPrintable keyEv.keyCode then e.value ++ keyEv.key else e.value)
  | _ :: _ :: _ =>
      Except.error ("multiple elements found to press: " ++ L.formatDescription)

/-- Embedding of `ScreenLocator.fill`: the cardinality gate, the
form-control guard, and the outright value replacement. Returns the filled
element and its new value. -/
def ScreenLocator.fill (L : ScreenLocator) (value : String) : Except String (Elem × String) :=
  match L.allElements with
  | [] => Except.error ("no elements found to fill: " ++ L.formatDescription)
  | [e] =>
      if ¬ (isFormTag e = true) then
        Except.error ("cannot fill out tag: " ++ strLower (DomNode.tagName e.nodeD))
      else Except.ok (e, value)
  | _ :: _ :: _ =>
      Except.error ("multiple elements found to fill: " ++ L.formatDescription)

/-- Embedding of `ScreenLocator.blur`: the cardinality gate (whose message
text reuses the fill wording, as in the source), returning the blurred
element. -/
def ScreenLocator.blur (L : ScreenLocator) : Except String Elem :=
  match L.allElements with
  | [] => Except.error ("no elements found to fill: " ++ L.formatDescription)
  | [e] => Except.ok e
  | _ :: _ :: _ =>
      Except.error ("multiple elements found to fill: " ++ L.formatDescription)

/-- Deep enumeration of the chaining operations of the locator, used to
quantify over them. -/
inductive ChainOp : Type where
  | locateOp (selector : String)
  | locateTextOp (q : TextQuery)
  | locateRoleOp (role : String)
  | filterTextOp (q : TextQuery)
  | firstOp

/-- Applies a chaining operation to a locator. -/
def applyChainOp (L : ScreenLocator) : ChainOp → ScreenLocator
  | ChainOp.locateOp s => L.locate s
  | ChainOp.locateTextOp q => L.locateText q
  | ChainOp.locateRoleOp r => L.locateRole r
  | ChainOp.filterTextOp q => L.filterText q
  | ChainOp.firstOp => L.first

/-! ## Screen session and assertion matchers (dom_screen.ts, screen_matchers.ts) -/

/-- The hint appended to every initialization error of dom_screen.ts
(the `initHintMsg` template literal). -/
def initHintMsg : String :=
  "\nHINT: call DomScreen.initTest() at the top of the test file. For example:\n\n   import \x7b act \x7d from \x27react\x27;\n   import \x7b DomScreen \x7d from \x27dom-screen\x27;\n\n   DomScreen.initTest(\x7b act, expect, afterEach \x7d);\n"

/-- Embedding of the module-level `isInit` check of dom_screen.ts: the
mutable module variable `let globalAct` is carried explicitly as an
`Option`, `none` standing for its pre-`initTest` undefined state. -/
def isInit (globalAct : Option DomScreenAct) : Bool :=
  globalAct.isSome

/-- Embedding of the `DomScreen` session handle of dom_screen.ts: the
container element and the root locator `this.loc` that its private
constructor builds from the registered runner
(`ScreenLocator.of(globalAct, container)`). -/
structure DomScreen : Type where
  container : Elem
  loc : ScreenLocator

/-- The static method `DomScreen.globalAct` as a value: it is itself a
runner function (it delegates to the registered runner after an
initialization check), so when it is passed around — as `verifyReceiver`
does — the embedding names it by this opaque handle. -/
def DomScreen.globalActHandle : DomScreenAct :=
  "DomScreen.globalAct"

/-- Embedding of the call behavior of the static `DomScreen.globalAct`:
invoked before `initTest` has registered a runner it throws the
initialization error; afterwards it delegates to the registered
runner. -/
def DomScreen.globalActCall (globalAct : Option DomScreenAct) : Except String DomScreenAct :=
  match globalAct with
  | none =>
      Except.error ("DomScreen.initTest() not called before DomScreen.globalAct()." ++ initHintMsg)
  | some act => Except.ok act

/-- Embedding of the locator-relevant behavior of the static
`DomScreen.render`: before `initTest` it throws the initialization
error; otherwise it returns a `DomScreen` whose private constructor
stores the container and the zero-step root locator built with the
registered runner. (The container creation, event flushing and cleanup
registration act on the external tree; the cleanup bookkeeping is
modelled by `CleanupSession`.) -/
def DomScreen.render (globalAct : Option DomScreenAct) (container : Elem) :
    Except String DomScreen :=
  match globalAct with
  | none =>
      Except.error ("DomScreen.initTest() not called before DomScreen.render()." ++ initHintMsg)
  | some act => Except.ok (DomScreen.mk container (ScreenLocator.of act container))

/-- Embedding of `DomScreen.locate`: delegates to the root locator. -/
def DomScreen.locate (s : DomScreen) (selector : String) : ScreenLocator :=
  s.loc.locate selector

/-- The receiver value handed to an assertion matcher: a screen, a
locator, a bare element, or any other value (carried as its stringified
form, which the source interpolates into the error message). -/
inductive Receiver : Type where
  | screen (s : DomScreen)
  | locator (l : ScreenLocator)
  | elementR (e : Elem)
  | other (shown : String)

/-- Embedding of `verifyReceiver` from screen_matchers.ts: normalizes the
receiver to a locator or fails before any matching logic runs. -/
def verifyReceiver : Receiver → Except String ScreenLocator
  | Receiver.screen s => Except.ok (s.locate "")
  | Receiver.locator l => Except.ok l
  | Receiver.elementR e => Except.ok (ScreenLocator.of DomScreen.globalActHandle e)
  | Receiver.other shown =>
      Except.error ("Expected receiver to be a DomScreen or ScreenLocator, got " ++ shown)

/-- The `{pass, message}` result shape returned by every matcher. -/
structure MatcherResult : Type where
  pass : Bool
  message : String
deriving DecidableEq

/-- Embedding of the retry loop inside `waitForSuccess` from
screen_matchers.ts. The wrapped synchronous matcher is time-dependent, so
it is passed as a function of the attempt index; the final component
counts down the remaining loop iterations of `for (let i = 0; i < 4; i++)`.
Returns the resolved result (`none` only on the unreachable
undefined-result branch), the number of evaluations performed, and the
sleeps requested between attempts. -/
def waitLoop (isNot : Bool) (fn : Nat → MatcherResult) :
    Nat → Nat → Option MatcherResult → List Nat → Nat →
    Option MatcherResult × Nat × List Nat
  | i, _, last, delays, 0 => (last, i, delays)
  | i, sleepMillis, _, delays, remaining + 1 =>
      let result := fn i
      if isNot ≠ result.pass then (some result, i + 1, delays)
      else
        waitLoop isNot fn (i + 1) (sleepMillis * 2) (some result)
          (delays ++ [sleepMillis]) remaining

/-- Embedding of `waitForSuccess` from screen_matchers.ts: at most 4
attempts, sleeps starting at 5 milliseconds and doubling. -/
def waitForSuccess (isNot : Bool) (fn : Nat → MatcherResult) :
    Option MatcherResult × Nat × List Nat :=
  waitLoop isNot fn 0 5 none [] 4

/-- The `screenMatchers` registration record from screen_matchers.ts,
keeping for each registered matcher name whether it is wrapped by
`waitForSuccess`. -/
def screenMatchers : List (String × Bool) :=
  [("toMatchSelector", false), ("toHaveClass", false), ("toContainText", false),
   ("toHaveURLPath", true), ("toHaveTitle", false), ("toBeInDocument", false)]

/-- The cleanup bookkeeping of `DomScreen`: the ordered list of registered
teardown thunks, each modelled as an opaque label of type `α`. -/
structure CleanupSession (α : Type) : Type where
  cleanups : List α

/-- Embedding of `this.cleanups.push(thunk)` performed by
`DomScreen.render`. -/
def CleanupSession.register {α : Type} (s : CleanupSession α) (c : α) : CleanupSession α :=
  CleanupSession.mk (s.cleanups ++ [c])

/-- Embedding of the private `DomScreen.cleanup`: runs every registered
thunk in list order (the returned second component is the execution log
appended in loop order) and then clears the list, as
`this.cleanups.length = 0` does. -/
def CleanupSession.cleanup {α : Type} (s : CleanupSession α) : CleanupSession α × List α :=
  (CleanupSession.mk [], s.cleanups.foldl (fun run c => run ++ [c]) [])

/-! ## Specification-side comparison definitions and concrete fixtures -/

/-- Splitter on a character predicate, keeping empty fragments (the
generalization of `splitCharsOnSpace` to arbitrary separators). -/
def splitCharsBy (p : Char → Bool) : List Char → List (List Char)
  | [] => [[]]
  | c :: rest =>
      let r := splitCharsBy p rest
      if p c then [] :: r
      else
        match r with
        | [] => [[c]]
        | t :: ts => (c :: t) :: ts

/-- Tokenization following the claim's words for `locateRole`: the role
attribute split on whitespace into (nonempty) tokens, an absent attribute
treated as no tokens. Stated from the spec, to be compared against the
source's `roleMatches`. -/
def roleTokensSpec (attr : Option String) : List String :=
  match attr with
  | none => []
  | some a => ((splitCharsBy isWsChar a.data).filter (fun t => ¬ (t = []))).map String.mk

/-- The direct text-node children of a node, stated from the spec's words
("concatenate only direct text-node children") for comparison with the
source's `getNormalizedText`. -/
def directTextChildren : DomNode → List String
  | DomNode.textNode _ => []
  | DomNode.elem _ _ _ cs =>
      cs.filterMap (fun c =>
        match c with
        | DomNode.textNode t => some t
        | DomNode.elem _ _ _ _ => none)

/-- A fixed runner handle for the concrete fixtures. -/
def sampleAct : DomScreenAct :=
  "act"

/-- Concrete tree: a DIV root containing a DIV which contains a DIV with
an explicit button role. -/
def cexTree : DomNode :=
  DomNode.elem "DIV" [] ""
    [DomNode.elem "DIV" [] ""
      [DomNode.elem "DIV" [("role", "button")] "" []]]

/-- Handle of the root of `cexTree`. -/
def cexRootElem : Elem :=
  Elem.mk cexTree []

/-- The zero-step locator rooted at `cexTree`. -/
def sampleLoc : ScreenLocator :=
  ScreenLocator.of sampleAct cexRootElem

/-- Concrete tree whose single child carries a tab-separated role
attribute. -/
def roleTabTree : DomNode :=
  DomNode.elem "DIV" [] "" [DomNode.elem "DIV" [("role", "a\tb")] "" []]

/-- Concrete tree whose single child has no role attribute at all. -/
def noRoleTree : DomNode :=
  DomNode.elem "DIV" [] "" [DomNode.elem "DIV" [] "" []]

/-- Concrete INPUT element with an empty value. -/
def inputTreeEmpty : DomNode :=
  DomNode.elem "INPUT" [] "" []

/-- Concrete INPUT element whose value is the single letter F. -/
def inputTreeF : DomNode :=
  DomNode.elem "INPUT" [] "F" []

/-- Zero-step locator on the empty-valued INPUT element. -/
def inputLocEmpty : ScreenLocator :=
  ScreenLocator.of sampleAct (Elem.mk inputTreeEmpty [])

/-- Zero-step locator on the F-valued INPUT element. -/
def inputLocF : ScreenLocator :=
  ScreenLocator.of sampleAct (Elem.mk inputTreeF [])

/-- Locator on `cexTree` matching no element (no P descendants). -/
def locZero : ScreenLocator :=
  sampleLoc.locate "p"

/-- Locator on `cexTree` matching both DIV descendants. -/
def locTwo : ScreenLocator :=
  sampleLoc.locate "div"

/-! ## Helper lemmas -/

theorem mem_addUnique {α : Type} [DecidableEq α] (l : List α) (a x : α) :
    x ∈ addUnique l a ↔ x ∈ l ∨ x = a := by
  unfold addUnique
  by_cases h : a ∈ l
  · simp only [h, if_true]
    constructor
    · exact fun hx => Or.inl hx
    · rintro (hx | rfl)
      · exact hx
      · exact h
  · simp [h]

theorem mem_foldl_steps {α β : Type} (step : β → List α → List α) (P : β → α → Prop)
    (hstep : ∀ b acc x, x ∈ step b acc ↔ x ∈ acc ∨ P b x) :
    ∀ (l : List β) (acc : List α) (x : α),
      x ∈ l.foldl (fun r b => step b r) acc ↔ x ∈ acc ∨ ∃ b, b ∈ l ∧ P b x := by
  intro l
  induction l with
  | nil => intro acc x; simp
  | cons b rest ih =>
      intro acc x
      rw [List.foldl_cons, ih (step b acc) x, hstep b acc x]
      constructor
      · rintro ((hx | hp) | ⟨b', hb', hp'⟩)
        · exact Or.inl hx
        · exact Or.inr ⟨b, List.mem_cons_self b rest, hp⟩
        · exact Or.inr ⟨b', List.mem_cons_of_mem b hb', hp'⟩
      · rintro (hx | ⟨b', hb', hp'⟩)
        · exact Or.inl (Or.inl hx)
        · rcases List.mem_cons.mp hb' with h | h
          · subst h; exact Or.inl (Or.inr hp')
          · exact Or.inr ⟨b', h, hp'⟩

theorem mem_foldl_guard {α : Type} [DecidableEq α] (pred : α → Bool) (l acc : List α) (x : α) :
    x ∈ l.foldl (fun r e => if pred e then addUnique r e else r) acc ↔
      x ∈ acc ∨ (x ∈ l ∧ pred x = true) := by
  have h := mem_foldl_steps (fun e r => if pred e then addUnique r e else r)
    (fun e y => y = e ∧ pred e = true) ?_ l acc x
  · rw [h]
    constructor
    · rintro (hx | ⟨e, he, rfl, hp⟩)
      · exact Or.inl hx
      · exact Or.inr ⟨he, hp⟩
    · rintro (hx | ⟨hl, hp⟩)
      · exact Or.inl hx
      · exact Or.inr ⟨x, hl, rfl, hp⟩
  · intro b acc' y
    cases hp : pred b with
    | true => simp [mem_addUnique, hp]
    | false => simp [hp]

theorem mem_foldl_pairMatch {β : Type} (f : β → Bool) (l : List (Elem × β)) (acc : List Elem)
    (x : Elem) :
    x ∈ l.foldl (fun r d => if f d.2 then addUnique r d.1 else r) acc ↔
      x ∈ acc ∨ ∃ d, d ∈ l ∧ x = d.1 ∧ f d.2 = true := by
  have h := mem_foldl_steps (fun (d : Elem × β) r => if f d.2 then addUnique r d.1 else r)
    (fun d y => y = d.1 ∧ f d.2 = true) ?_ l acc x
  · rw [h]
  · intro b acc' y
    cases hf : f b.2 with
    | true => simp [mem_addUnique, hf]
    | false => simp [hf]

theorem mem_foldl_addUnique {α : Type} [DecidableEq α] (l acc : List α) (x : α) :
    x ∈ l.foldl addUnique acc ↔ x ∈ acc ∨ x ∈ l := by
  have h := mem_foldl_steps (fun a r => addUnique r a) (fun a y => y = a) ?_ l acc x
  · rw [show l.foldl addUnique acc = l.foldl (fun r a => addUnique r a) acc from rfl, h]
    constructor
    · rintro (hx | ⟨a, ha, rfl⟩)
      · exact Or.inl hx
      · exact Or.inr ha
    · rintro (hx | hl)
      · exact Or.inl hx
      · exact Or.inr ⟨x, hl, rfl⟩
  · intro b acc' y
    exact mem_addUnique acc' b y

theorem mem_matchDescendants (prev : List Elem) (isMatch : DomNode → Bool) (r : Elem) :
    r ∈ matchDescendants prev isMatch ↔
      ∃ e, e ∈ prev ∧ ∃ d, d ∈ e.descendants ∧ r = d.1 ∧ isMatch d.2 = true := by
  unfold matchDescendants
  have h := mem_foldl_steps
    (fun (e : Elem) (res : List Elem) =>
      e.descendants.foldl (fun acc d => if isMatch d.2 then addUnique acc d.1 else acc) res)
    (fun e y => ∃ d, d ∈ e.descendants ∧ y = d.1 ∧ isMatch d.2 = true) ?_ prev [] r
  · rw [h]; simp
  · intro e acc y
    exact mem_foldl_pairMatch isMatch e.descendants acc y

theorem mem_matchQuerySelector (prev : List Elem) (selector : String) (r : Elem) :
    r ∈ matchQuerySelector prev selector ↔
      ∃ e, e ∈ prev ∧ r ∈ e.queryAll selector := by
  unfold matchQuerySelector
  have h := mem_foldl_steps
    (fun (e : Elem) (res : List Elem) => (e.queryAll selector).foldl addUnique res)
    (fun e y => y ∈ e.queryAll selector) ?_ prev [] r
  · rw [h]; simp
  · intro e acc y
    exact mem_foldl_addUnique (e.queryAll selector) acc y

theorem mem_filterTextFn (prev : List Elem) (s : TextQuery) (r : Elem) :
    r ∈ filterTextFn prev s ↔ r ∈ prev ∧ textPred s r = true := by
  unfold filterTextFn
  rw [mem_foldl_guard (textPred s) prev [] r]
  simp

theorem descList_shape :
    ∀ (cs : List DomNode) (i : Nat) (q : List Nat) (d : DomNode),
      (q, d) ∈ descList i cs → ∃ j t, q = j :: t := by
  intro cs
  induction cs with
  | nil => intro i q d h; simp [descList] at h
  | cons c rest ih =>
      intro i q d h
      cases c with
      | textNode s =>
          rw [show descList i (DomNode.textNode s :: rest) = descList (i + 1) rest from rfl] at h
          exact ih (i + 1) q d h
      | elem t a v cs2 =>
          rw [show descList i (DomNode.elem t a v cs2 :: rest) =
              (([i], DomNode.elem t a v cs2) ::
                (descWithNodes (DomNode.elem t a v cs2)).map (fun p => (i :: p.1, p.2)))
                ++ descList (i + 1) rest from rfl] at h
          rcases List.mem_append.mp h with h1 | h2
          · rcases List.mem_cons.mp h1 with h3 | h4
            · rcases Prod.mk.injEq .. ▸ h3 with ⟨hq, _⟩
              exact ⟨i, [], hq⟩
            · rcases List.mem_map.mp h4 with ⟨p, _, hp⟩
              rcases Prod.mk.injEq .. ▸ hp with ⟨hq, _⟩
              exact ⟨i, p.1, hq.symm⟩
          · exact ih (i + 1) q d h2

theorem descWithNodes_shape (n : DomNode) (q : List Nat) (d : DomNode)
    (h : (q, d) ∈ descWithNodes n) : q ≠ [] := by
  cases n with
  | textNode s => simp [descWithNodes] at h
  | elem t a v cs =>
      rw [show descWithNodes (DomNode.elem t a v cs) = descList 0 cs from rfl] at h
      rcases descList_shape cs 0 q d h with ⟨j, t', ht⟩
      simp [ht]

theorem descendants_proper (e : Elem) (d : Elem × DomNode) (h : d ∈ e.descendants) :
    d.1.root = e.root ∧ ∃ q, q ≠ [] ∧ d.1.path = e.path ++ q := by
  unfold Elem.descendants at h
  cases hn : e.node? with
  | none => rw [hn] at h; simp at h
  | some n =>
      rw [hn] at h
      rcases List.mem_map.mp h with ⟨p, hp, hd⟩
      have hne : p.1 ≠ [] := descWithNodes_shape n p.1 p.2 hp
      subst hd
      exact ⟨rfl, p.1, hne, rfl⟩

theorem waitLoop_count_le (isNot : Bool) (fn : Nat → MatcherResult) :
    ∀ (remaining i sleep : Nat) (last : Option MatcherResult) (delays : List Nat),
      (waitLoop isNot fn i sleep last delays remaining).2.1 ≤ i + remaining := by
  intro remaining
  induction remaining with
  | zero => intro i sleep last delays; simp [waitLoop]
  | succ rem ih =>
      intro i sleep last delays
      show (if isNot ≠ (fn i).pass then (some (fn i), i + 1, delays)
        else waitLoop isNot fn (i + 1) (sleep * 2) (some (fn i)) (delays ++ [sleep]) rem).2.1
          ≤ i + (rem + 1)
      by_cases h : isNot ≠ (fn i).pass
      · rw [if_pos h]
        show i + 1 ≤ i + (rem + 1)
        omega
      · rw [if_neg h]
        have := ih (i + 1) (sleep * 2) (some (fn i)) (delays ++ [sleep])
        omega

theorem foldl_snoc_eq {α : Type} :
    ∀ (l acc : List α), l.foldl (fun run c => run ++ [c]) acc = acc ++ l := by
  intro l
  induction l with
  | nil => intro acc; simp
  | cons c rest ih =>
      intro acc
      rw [List.foldl_cons, ih]
      simp

/-! ## Claim theorems -/

/-- C2: the retry wrapper `waitForSuccess` (applied only to the URL-path
matcher in `screenMatchers`) evaluates the wrapped matcher at most 4
times; when the possibly-negated predicate first succeeds at attempt `j`
(success being `isNot` differing from `pass`) it stops there, having
slept the doubling delays 5, 10, ... between the earlier attempts; and
when all 4 attempts fail it performs exactly 4 evaluations and returns
the last evaluation's result, never a synthesized timeout error. -/
theorem C2_retryWrapper :
    (∀ (isNot : Bool) (fn : Nat → MatcherResult), (waitForSuccess isNot fn).2.1 ≤ 4) ∧
    (∀ (isNot : Bool) (fn : Nat → MatcherResult),
      (∀ i, i < 4 → isNot = (fn i).pass) →
      waitForSuccess isNot fn = (some (fn 3), 4, [5, 10, 20, 40])) ∧
    (∀ (isNot : Bool) (fn : Nat → MatcherResult) (j : Nat), j < 4 →
      (∀ i, i < j → isNot = (fn i).pass) → isNot ≠ (fn j).pass →
      waitForSuccess isNot fn = (some (fn j), j + 1, List.take j [5, 10, 20, 40])) ∧
    (∀ n : String, (n, true) ∈ screenMatchers ↔ n = "toHaveURLPath") := by
  refine ⟨?_, ?_, ?_, ?_⟩
  · intro isNot fn
    exact waitLoop_count_le isNot fn 4 0 5 none []
  · intro isNot fn hf
    have h0 := hf 0 (by omega)
    have h1 := hf 1 (by omega)
    have h2 := hf 2 (by omega)
    have h3 := hf 3 (by omega)
    simp [waitForSuccess, waitLoop, ← h0, ← h1, ← h2, ← h3]
  · intro isNot fn j hj hf hs
    interval_cases j
    · simp [waitForSuccess, waitLoop, hs]
    · have h0 := hf 0 (by omega)
      simp [waitForSuccess, waitLoop, ← h0, hs]
    · have h0 := hf 0 (by omega)
      have h1 := hf 1 (by omega)
      simp [waitForSuccess, waitLoop, ← h0, ← h1, hs]
    · have h0 := hf 0 (by omega)
      have h1 := hf 1 (by omega)
      have h2 := hf 2 (by omega)
      simp [waitForSuccess, waitLoop, ← h0, ← h1, ← h2, hs]
  · intro n
    simp [screenMatchers]

/-- Witness for C2: a matcher that never passes, checked without
negation, is evaluated exactly 4 times, the requested sleeps are 5, 10,
20 and 40 milliseconds, and the final (fourth) evaluation's result is
returned. -/
theorem C2_retryWrapper_witness :
    waitForSuccess false (fun _ => MatcherResult.mk false "m") =
      (some (MatcherResult.mk false "m"), 4, [5, 10, 20, 40]) :=
  C2_retryWrapper.2.1 false (fun _ => MatcherResult.mk false "m") (fun _ _ => rfl)

/-- C7: every matcher receiver normalizes before any matching logic
runs: a screen becomes its stored root locator (`receiver.locate('')` is
the designed no-op, and for a screen produced by `render` that locator
has zero steps, the registered runner and the screen's container as
root), a locator passes through unchanged, a bare element becomes a
zero-step locator rooted at that element whose runner is the static
`DomScreen.globalAct` wrapper — the wrapper errors when invoked before
`initTest` and delegates to the registered runner afterwards — and any
other receiver value produces the unsupported-receiver error. -/
theorem C7_verifyReceiver_normalizes :
    (∀ s : DomScreen, verifyReceiver (Receiver.screen s) = Except.ok s.loc) ∧
    (∀ (act : DomScreenAct) (container : Elem) (scr : DomScreen),
      DomScreen.render (some act) container = Except.ok scr →
      verifyReceiver (Receiver.screen scr) = Except.ok (ScreenLocator.mk act container [])) ∧
    (∀ l : ScreenLocator, verifyReceiver (Receiver.locator l) = Except.ok l) ∧
    (∀ e : Elem, verifyReceiver (Receiver.elementR e) =
      Except.ok (ScreenLocator.mk DomScreen.globalActHandle e [])) ∧
    (∀ shown : String, verifyReceiver (Receiver.other shown) =
      Except.error ("Expected receiver to be a DomScreen or ScreenLocator, got " ++ shown)) ∧
    (DomScreen.globalActCall none =
      Except.error
        ("DomScreen.initTest() not called before DomScreen.globalAct()." ++ initHintMsg)) ∧
    (∀ a : DomScreenAct, DomScreen.globalActCall (some a) = Except.ok a) := by
  refine ⟨?_, ?_, ?_, ?_, ?_, rfl, ?_⟩
  · intro s; rfl
  · intro act container scr h
    have hs : scr = DomScreen.mk container (ScreenLocator.of act container) := by
      have := h
      rw [DomScreen.render] at this
      exact (Except.ok.injEq ..).mp this.symm
    subst hs
    rfl
  · intro l; rfl
  · intro e; rfl
  · intro shown; rfl
  · intro a; rfl

/-- Witness for C7: a screen rendered with the concrete runner and
container normalizes to the zero-step root locator built from them. -/
theorem C7_verifyReceiver_normalizes_witness :
    verifyReceiver (Receiver.screen
      (DomScreen.mk cexRootElem (ScreenLocator.of sampleAct cexRootElem))) =
      Except.ok (ScreenLocator.mk sampleAct cexRootElem []) :=
  C7_verifyReceiver_normalizes.2.1 sampleAct cexRootElem
    (DomScreen.mk cexRootElem (ScreenLocator.of sampleAct cexRootElem)) rfl

/-- C9: the session cleanup executes the registered teardown thunks in
exactly the order they were registered (registration appends to the end
of the list, execution replays the list front to back) and then clears
the list, so a second cleanup after one render executes nothing and is a
no-op. -/
theorem C9_cleanup_fifo_idempotent :
    (∀ (α : Type) (s : CleanupSession α), s.cleanup = (CleanupSession.mk [], s.cleanups)) ∧
    (∀ (α : Type) (s : CleanupSession α), (s.cleanup.1).cleanup = (CleanupSession.mk [], [])) ∧
    (∀ (α : Type) (s : CleanupSession α) (c : α),
      (s.register c).cleanups = s.cleanups ++ [c]) := by
  refine ⟨?_, ?_, ?_⟩
  · intro α s
    unfold CleanupSession.cleanup
    rw [foldl_snoc_eq]
    simp
  · intro α s
    rfl
  · intro α s c
    rfl

/-- C10: the `first()` step is total: its checked body never reaches the
internal error branch, returning the empty set on an empty input and the
singleton of the head of the traversal order otherwise, and the total
step used in the pipeline agrees with it. -/
theorem C10_firstStep_total :
    (∀ prev : List Elem, ∃ r, firstStepChecked prev = Except.ok r ∧ firstStep prev = r) ∧
    (∀ prev : List Elem, (firstStepChecked prev).isOk = true) ∧
    (firstStepChecked ([] : List Elem) = Except.ok []) ∧
    (∀ (e : Elem) (es : List Elem), firstStepChecked (e :: es) = Except.ok [e]) := by
  have hok : ∀ prev : List Elem, firstStepChecked prev =
      Except.ok (match prev with | [] => [] | e :: _ => [e]) := by
    intro prev
    cases prev with
    | nil => rfl
    | cons e es => simp [firstStepChecked]
  refine ⟨?_, ?_, ?_, ?_⟩
  · intro prev
    refine ⟨_, hok prev, ?_⟩
    unfold firstStep
    rw [hok prev]
  · intro prev
    rw [hok prev]
    rfl
  · exact hok []
  · intro e es
    exact hok (e :: es)

theorem matchDescendants_proper (prev : List Elem) (isMatch : DomNode → Bool) (r : Elem)
    (h : r ∈ matchDescendants prev isMatch) :
    ∃ e, e ∈ prev ∧ r.root = e.root ∧ ∃ q, q ≠ [] ∧ r.path = e.path ++ q := by
  rcases (mem_matchDescendants prev isMatch r).mp h with ⟨e, he, d, hd, rfl, _⟩
  rcases descendants_proper e d hd with ⟨hr, q, hq, hp⟩
  exact ⟨e, he, hr, q, hq, hp⟩

theorem queryAll_proper (e : Elem) (selector : String) (r : Elem)
    (h : r ∈ e.queryAll selector) :
    r.root = e.root ∧ ∃ q, q ≠ [] ∧ r.path = e.path ++ q := by
  unfold Elem.queryAll at h
  rcases List.mem_map.mp h with ⟨d, hd, rfl⟩
  exact descendants_proper e d (List.mem_filter.mp hd).1

theorem matchQuerySelector_proper (prev : List Elem) (selector : String) (r : Elem)
    (h : r ∈ matchQuerySelector prev selector) :
    ∃ e, e ∈ prev ∧ r.root = e.root ∧ ∃ q, q ≠ [] ∧ r.path = e.path ++ q := by
  rcases (mem_matchQuerySelector prev selector r).mp h with ⟨e, he, hq⟩
  rcases queryAll_proper e selector r hq with ⟨hr, q, hne, hp⟩
  exact ⟨e, he, hr, q, hne, hp⟩

theorem path_no_self_extend (e : Elem) (q : List Nat) (hq : q ≠ [])
    (hp : e.path = e.path ++ q) : False := by
  have hl := congrArg List.length hp
  rw [List.length_append] at hl
  have : q.length = 0 := by omega
  exact hq (List.length_eq_zero.mp this)

/-- C1 counterexample: on the tree DIV > DIV > DIV[role=button], the set
reached by `locate("div")` contains both nested DIVs, and the following
`locateRole("button")` step returns the inner DIV — an element of the
current set — because it is a descendant of the other member. The claim's
universally quantified "never include a node of the current set itself"
is therefore false. -/
theorem C1_descendant_exclusion_counterexample :
    Elem.mk cexTree [0, 0] ∈ ((sampleLoc.locate "div").locateRole "button").allElements ∧
    Elem.mk cexTree [0, 0] ∈ (sampleLoc.locate "div").allElements := by
  decide

/-- C1 (amended): every element returned by a descendant step (`locate`,
`locateText`, `locateRole`) lies strictly below some member of the input
set — its path properly extends that member's path — so the member a scan
starts from is never included by virtue of its own match; in particular on
a singleton input set the sole member never appears in the result, even
when it matches. A member can still appear when it is a proper descendant
of another member. `filterText` instead tests the members themselves: an
element is in its result exactly when it is in the input set and its own
normalized text matches, so nothing outside the input set is ever
added. -/
theorem C1_descendant_exclusion_amended :
    (∀ (prev : List Elem) (isMatch : DomNode → Bool) (r : Elem),
      r ∈ matchDescendants prev isMatch →
      ∃ e, e ∈ prev ∧ r.root = e.root ∧ ∃ q, q ≠ [] ∧ r.path = e.path ++ q) ∧
    (∀ (prev : List Elem) (selector : String) (r : Elem),
      r ∈ matchQuerySelector prev selector →
      ∃ e, e ∈ prev ∧ r.root = e.root ∧ ∃ q, q ≠ [] ∧ r.path = e.path ++ q) ∧
    (∀ (prev : List Elem) (t : String) (r : Elem),
      r ∈ matchText prev t →
      ∃ e, e ∈ prev ∧ r.root = e.root ∧ ∃ q, q ≠ [] ∧ r.path = e.path ++ q) ∧
    (∀ (prev : List Elem) (test : String → Bool) (r : Elem),
      r ∈ matchRegExp prev test →
      ∃ e, e ∈ prev ∧ r.root = e.root ∧ ∃ q, q ≠ [] ∧ r.path = e.path ++ q) ∧
    (∀ (prev : List Elem) (role : String) (r : Elem),
      r ∈ matchRole prev role →
      ∃ e, e ∈ prev ∧ r.root = e.root ∧ ∃ q, q ≠ [] ∧ r.path = e.path ++ q) ∧
    (∀ (e : Elem) (isMatch : DomNode → Bool), e ∉ matchDescendants [e] isMatch) ∧
    (∀ (e : Elem) (selector : String), e ∉ matchQuerySelector [e] selector) ∧
    (∀ (prev : List Elem) (s : TextQuery) (r : Elem),
      r ∈ filterTextFn prev s ↔ r ∈ prev ∧ textPred s r = true) := by
  have hsingle : ∀ (e : Elem) (P : Elem → Prop),
      (∃ e', e' ∈ [e] ∧ e.root = e'.root ∧ ∃ q, q ≠ [] ∧ e.path = e'.path ++ q) → False := by
    intro e P h
    rcases h with ⟨e', he', _, q, hq, hp⟩
    have : e' = e := by simpa using he'
    subst this
    exact path_no_self_extend e' q hq hp
  refine ⟨matchDescendants_proper, matchQuerySelector_proper, ?_, ?_, ?_, ?_, ?_, mem_filterTextFn⟩
  · intro prev t r h
    exact matchDescendants_proper prev _ r h
  · intro prev test r h
    exact matchDescendants_proper prev _ r h
  · intro prev role r h
    exact matchDescendants_proper prev _ r h
  · intro e isMatch h
    exact hsingle e (fun _ => True) (matchDescendants_proper [e] isMatch e h)
  · intro e selector h
    exact hsingle e (fun _ => True) (matchQuerySelector_proper [e] selector e h)

/-- Witness for C1 (amended): the inner DIV returned by the role scan on
the concrete tree is strictly below a member of the input set. -/
theorem C1_descendant_exclusion_amended_witness :
    ∃ e, e ∈ [cexRootElem] ∧ (Elem.mk cexTree [0, 0]).root = e.root ∧
      ∃ q, q ≠ [] ∧ (Elem.mk cexTree [0, 0]).path = e.path ++ q :=
  C1_descendant_exclusion_amended.1 [cexRootElem] (fun n => roleMatches n "button")
    (Elem.mk cexTree [0, 0]) (by decide)

theorem chainLocator_fields (L : ScreenLocator) (d : String) (m : List Elem → List Elem) :
    (L.chainLocator d m).act = L.act ∧ (L.chainLocator d m).root = L.root ∧
      (L.chainLocator d m).matchers = L.matchers ++ [LocatorMatcher.mk d m] :=
  ⟨rfl, rfl, rfl⟩

/-- C3 counterexample: `locate("")` is a designed no-op that returns the
receiver locator itself with no step appended, so the claim's "returns a
new locator with one step appended" fails for this operation. -/
theorem C3_chaining_counterexample :
    sampleLoc.locate "" = sampleLoc ∧
    (sampleLoc.locate "").matchers.length ≠ sampleLoc.matchers.length + 1 := by
  refine ⟨rfl, ?_⟩
  decide

/-- C3 (amended): every chaining operation is pure: it leaves the
receiver value untouched (so `L.allElements()` is unaffected) and returns
a locator sharing the receiver's root and runner whose matcher list is
the receiver's with at most one step appended — exactly one for every
operation except `locate` with the empty selector, which returns the
receiver itself with no step appended. -/
theorem C3_chaining_append_only_amended :
    ∀ (L : ScreenLocator) (op : ChainOp),
      (applyChainOp L op).act = L.act ∧
      (applyChainOp L op).root = L.root ∧
      ∃ tail : List LocatorMatcher,
        (applyChainOp L op).matchers = L.matchers ++ tail ∧ tail.length ≤ 1 ∧
        (tail = [] → op = ChainOp.locateOp "") := by
  intro L op
  cases op with
  | locateOp s =>
      by_cases hs : s = ""
      · subst hs
        refine ⟨rfl, rfl, [], ?_, by simp, fun _ => rfl⟩
        show (L.locate "").matchers = L.matchers ++ []
        rw [ScreenLocator.locate]
        simp
      · refine ⟨?_, ?_, ?_⟩
        · show (L.locate s).act = L.act
          rw [ScreenLocator.locate, if_neg hs]
          rfl
        · show (L.locate s).root = L.root
          rw [ScreenLocator.locate, if_neg hs]
          rfl
        · refine ⟨[LocatorMatcher.mk ("locate(" ++ s ++ ")")
            (fun prev => matchQuerySelector prev s)], ?_, by simp, fun hc => by simp at hc⟩
          show (L.locate s).matchers = _
          rw [ScreenLocator.locate, if_neg hs]
          rfl
  | locateTextOp q =>
      cases q with
      | str s => exact ⟨rfl, rfl, [_], rfl, by simp, fun hc => by simp at hc⟩
      | regex src test => exact ⟨rfl, rfl, [_], rfl, by simp, fun hc => by simp at hc⟩
  | locateRoleOp role => exact ⟨rfl, rfl, [_], rfl, by simp, fun hc => by simp at hc⟩
  | filterTextOp q => exact ⟨rfl, rfl, [_], rfl, by simp, fun hc => by simp at hc⟩
  | firstOp => exact ⟨rfl, rfl, [_], rfl, by simp, fun hc => by simp at hc⟩

/-- Witness for C3 (amended): instantiation at the concrete zero-step
locator and the `first()` operation. -/
theorem C3_chaining_append_only_amended_witness :
    (applyChainOp sampleLoc ChainOp.firstOp).act = sampleLoc.act ∧
    (applyChainOp sampleLoc ChainOp.firstOp).root = sampleLoc.root ∧
    ∃ tail : List LocatorMatcher,
      (applyChainOp sampleLoc ChainOp.firstOp).matchers = sampleLoc.matchers ++ tail ∧
      tail.length ≤ 1 ∧ (tail = [] → ChainOp.firstOp = ChainOp.locateOp "") :=
  C3_chaining_append_only_amended sampleLoc ChainOp.firstOp

theorem append_ne_of_length_ne (a b d : String) (hab : a.length ≠ b.length) :
    (a ++ d) ≠ (b ++ d) := by
  intro h
  apply hab
  have hl := congrArg String.length h
  rw [String.length_append, String.length_append] at hl
  omega

/-- C4: the single-element accessors `element`, `click`, `fill`, `press`
and `blur` all fail on an empty materialized set and on a set with more
than one element, each with a zero-matches message and a multiple-matches
message that differ from each other and carry the locator's formatted
description; none of them silently picks one element, and `element` on a
singleton set returns that element. -/
theorem C4_cardinality_contract :
    (∀ L : ScreenLocator, L.allElements = [] →
      L.element = Except.error ("no elements found but expected one: " ++ L.formatDescription) ∧
      L.click = Except.error ("no elements found to click: " ++ L.formatDescription) ∧
      (∀ key, L.press key =
        Except.error ("no elements found to press: " ++ L.formatDescription)) ∧
      (∀ v, L.fill v = Except.error ("no elements found to fill: " ++ L.formatDescription)) ∧
      L.blur = Except.error ("no elements found to fill: " ++ L.formatDescription)) ∧
    (∀ (L : ScreenLocator) (e e' : Elem) (es : List Elem), L.allElements = e :: e' :: es →
      L.element =
        Except.error ("multiple elements found but expected one: " ++ L.formatDescription) ∧
      L.click = Except.error ("multiple elements found to click: " ++ L.formatDescription) ∧
      (∀ key, L.press key =
        Except.error ("multiple elements found to press: " ++ L.formatDescription)) ∧
      (∀ v, L.fill v =
        Except.error ("multiple elements found to fill: " ++ L.formatDescription)) ∧
      L.blur = Except.error ("multiple elements found to fill: " ++ L.formatDescription)) ∧
    (∀ (L : ScreenLocator) (e : Elem), L.allElements = [e] → L.element = Except.ok e) ∧
    (∀ d : String,
      ("no elements found but expected one: " ++ d) ≠
        ("multiple elements found but expected one: " ++ d) ∧
      ("no elements found to click: " ++ d) ≠ ("multiple elements found to click: " ++ d) ∧
      ("no elements found to press: " ++ d) ≠ ("multiple elements found to press: " ++ d) ∧
      ("no elements found to fill: " ++ d) ≠ ("multiple elements found to fill: " ++ d)) := by
  refine ⟨?_, ?_, ?_, ?_⟩
  · intro L h
    refine ⟨?_, ?_, fun key => ?_, fun v => ?_, ?_⟩
    · rw [ScreenLocator.element, h]
    · rw [ScreenLocator.click, h]
    · rw [ScreenLocator.press, h]
    · rw [ScreenLocator.fill, h]
    · rw [ScreenLocator.blur, h]
  · intro L e e' es h
    refine ⟨?_, ?_, fun key => ?_, fun v => ?_, ?_⟩
    · rw [ScreenLocator.element, h]
    · rw [ScreenLocator.click, h]
    · rw [ScreenLocator.press, h]
    · rw [ScreenLocator.fill, h]
    · rw [ScreenLocator.blur, h]
  · intro L e h
    rw [ScreenLocator.element, h]
  · intro d
    exact ⟨append_ne_of_length_ne _ _ d (by decide), append_ne_of_length_ne _ _ d (by decide),
      append_ne_of_length_ne _ _ d (by decide), append_ne_of_length_ne _ _ d (by decide)⟩

/-- Witness for C4: on the concrete fixtures, a singleton set returns its
element, an empty set produces the zero-matches error, and a two-element
set produces the multiple-matches error. -/
theorem C4_cardinality_contract_witness :
    sampleLoc.element = Except.ok cexRootElem ∧
    locZero.element =
      Except.error ("no elements found but expected one: " ++ locZero.formatDescription) ∧
    locTwo.element =
      Except.error ("multiple elements found but expected one: " ++ locTwo.formatDescription) :=
  ⟨C4_cardinality_contract.2.2.1 sampleLoc cexRootElem (by decide),
   (C4_cardinality_contract.1 locZero (by decide)).1,
   (C4_cardinality_contract.2.1 locTwo (Elem.mk cexTree [0]) (Elem.mk cexTree [0, 0]) []
     (by decide)).1⟩

theorem concatAll_map_eq_filterMap (cs : List DomNode) :
    concatAll (cs.map (fun c => match c with
      | DomNode.textNode t => t
      | DomNode.elem _ _ _ _ => "")) =
    concatAll (cs.filterMap (fun c => match c with
      | DomNode.textNode t => some t
      | DomNode.elem _ _ _ _ => none)) := by
  induction cs with
  | nil => rfl
  | cons c rest ih =>
      cases c with
      | textNode t =>
          simp only [List.map_cons, List.filterMap_cons, concatAll]
          rw [ih]
      | elem t a v cs2 =>
          simp only [List.map_cons, List.filterMap_cons, concatAll]
          rw [ih]
          simp [concatAll]

/-- C5: the own-text extraction returns the current value for INPUT and
TEXTAREA controls (unchanged), and for every other element concatenates
exactly the direct text-node children — nested element text is excluded —
then collapses whitespace runs to single spaces and trims both ends; the
concrete direct text content made of the characters space, space, a,
newline, space, b, space, space normalizes to the two-character-separated
form a-space-b. -/
theorem C5_text_extraction :
    (∀ (tag : String) (attrs : List (String × String)) (v : String) (cs : List DomNode),
      tag = "INPUT" ∨ tag = "TEXTAREA" →
      getNormalizedText (DomNode.elem tag attrs v cs) = v) ∧
    (∀ (tag : String) (attrs : List (String × String)) (v : String) (cs : List DomNode),
      ¬ (tag = "INPUT") → ¬ (tag = "TEXTAREA") →
      getNormalizedText (DomNode.elem tag attrs v cs) =
        normalizeWhitespace (concatAll (directTextChildren (DomNode.elem tag attrs v cs)))) ∧
    (getNormalizedText (DomNode.elem "DIV" [] "" [DomNode.textNode "  a\n b  "]) = "a b") ∧
    (normalizeWhitespace "  a\n b  " = "a b") := by
  refine ⟨?_, ?_, by decide, by decide⟩
  · intro tag attrs v cs h
    rcases h with h | h
    · subst h; rfl
    · subst h; rfl
  · intro tag attrs v cs h1 h2
    rw [getNormalizedText, directTextChildren]
    rw [DomNode.tagName]
    rw [if_neg (by simp [h1, h2])]
    rw [concatAll_map_eq_filterMap]

/-- Witness for C5: an INPUT control's value is returned as is (including
its trailing space, which normalization would have removed), and a DIV
with only nested-element text has empty own text. -/
theorem C5_text_extraction_witness :
    getNormalizedText (DomNode.elem "INPUT" [] "x y " []) = "x y " ∧
    getNormalizedText (DomNode.elem "DIV" [] ""
      [DomNode.elem "SPAN" [] "" [DomNode.textNode "hidden"]]) =
      normalizeWhitespace (concatAll (directTextChildren (DomNode.elem "DIV" [] ""
        [DomNode.elem "SPAN" [] "" [DomNode.textNode "hidden"]]))) :=
  ⟨C5_text_extraction.1 "INPUT" [] "x y " [] (Or.inl rfl),
   C5_text_extraction.2.1 "DIV" [] "" [DomNode.elem "SPAN" [] "" [DomNode.textNode "hidden"]]
     (by decide) (by decide)⟩

theorem contains_iff_mem {α : Type} [BEq α] [LawfulBEq α] (l : List α) (a : α) :
    l.contains a = true ↔ a ∈ l := by
  simp [List.contains_eq_any_beq]

/-- C6 counterexample: the source splits the role attribute on single
spaces only (then trims each fragment), so a tab-separated attribute
value a-tab-b yields the single token a-tab-b and the role a does not
match even though a is a whitespace-separated token of the attribute; and
an element without a role attribute yields the token list containing the
empty string, so the empty role matches it even though the claim assigns
it no tokens. -/
theorem C6_roleTokens_counterexample :
    ((ScreenLocator.of sampleAct (Elem.mk roleTabTree [])).locateRole "a").allElements = [] ∧
    "a" ∈ roleTokensSpec (getAttr (DomNode.elem "DIV" [("role", "a\tb")] "" []) "role") ∧
    ((ScreenLocator.of sampleAct (Elem.mk noRoleTree [])).locateRole "").allElements =
      [Elem.mk noRoleTree [0]] ∧
    roleTokensSpec (getAttr (DomNode.elem "DIV" [] "" []) "role") = [] := by
  refine ⟨by decide, by decide, by decide, by decide⟩

/-- C6 (amended): `locateRole(role)` keeps exactly those proper
descendants of members of the current set whose role attribute — the
absent attribute read as the empty string — split on single-space
boundaries with every fragment trimmed, contains the requested role as an
exact token. (With this tokenization an attribute with adjacent spaces,
or an absent attribute, contributes the empty-string token, so the empty
role matches such nodes; no implicit-role inference takes place.) -/
theorem C6_locateRole_amended :
    ∀ (prev : List Elem) (role : String) (r : Elem),
      r ∈ matchRole prev role ↔
        ∃ e, e ∈ prev ∧ ∃ d, d ∈ e.descendants ∧ r = d.1 ∧
          role ∈ (splitOnSpace (((getAttr d.2 "role")).getD "")).map jsTrim := by
  intro prev role r
  rw [matchRole, mem_matchDescendants]
  constructor
  · rintro ⟨e, he, d, hd, rfl, hm⟩
    refine ⟨e, he, d, hd, rfl, ?_⟩
    rw [roleMatches] at hm
    exact (contains_iff_mem _ _).mp hm
  · rintro ⟨e, he, d, hd, rfl, hm⟩
    refine ⟨e, he, d, hd, rfl, ?_⟩
    rw [roleMatches]
    exact (contains_iff_mem _ _).mpr hm

/-- Witness for C6 (amended): on the concrete tree, the child with the
explicit button role is in the result of the role scan, and the amended
characterization exhibits it as a proper descendant with a matching
trimmed token. -/
theorem C6_locateRole_amended_witness :
    Elem.mk cexTree [0, 0] ∈ matchRole [cexRootElem] "button" ↔
      ∃ e, e ∈ [cexRootElem] ∧ ∃ d, d ∈ e.descendants ∧ Elem.mk cexTree [0, 0] = d.1 ∧
        "button" ∈ (splitOnSpace (((getAttr d.2 "role")).getD "")).map jsTrim :=
  C6_locateRole_amended [cexRootElem] "button" (Elem.mk cexTree [0, 0])

/-- C8: `press` on a single matched form control succeeds after the key
lookup, appending the key's character to the element's value exactly when
the key code is printable and leaving the value unchanged otherwise;
`fill` replaces the value outright; the key F (code 70) is printable
while the modelled control keys Enter and Tab (codes 13 and 9) are
not. -/
theorem C8_press_printable_policy :
    (∀ (L : ScreenLocator) (e : Elem) (key : String) (kev : KeyEvent),
      L.allElements = [e] → isFormTag e = true → lookupKey key = some kev →
      L.press key =
        Except.ok (e, if isPrintable kev.keyCode then e.value ++ kev.key else e.value)) ∧
    (∀ (L : ScreenLocator) (e : Elem) (v : String),
      L.allElements = [e] → isFormTag e = true →
      L.fill v = Except.ok (e, v)) ∧
    (lookupKey "F" = some (KeyEvent.mk "F" 70) ∧ isPrintable 70 = true) ∧
    (lookupKey "Enter" = some (KeyEvent.mk "Enter" 13) ∧ isPrintable 13 = false ∧
      isPrintable 9 = false) := by
  refine ⟨?_, ?_, by decide, by decide⟩
  · intro L e key kev h1 h2 h3
    rw [ScreenLocator.press, h1, h3]
    simp [h2]
  · intro L e v h1 h2
    rw [ScreenLocator.fill, h1]
    simp [h2]

/-- Witness for C8: pressing F on the empty-valued INPUT produces the
value F, pressing Enter on the F-valued INPUT leaves the value F, and
filling the F-valued INPUT replaces the value outright. -/
theorem C8_press_printable_policy_witness :
    inputLocEmpty.press "F" = Except.ok (Elem.mk inputTreeEmpty [], "F") ∧
    inputLocF.press "Enter" = Except.ok (Elem.mk inputTreeF [], "F") ∧
    inputLocF.fill "hello" = Except.ok (Elem.mk inputTreeF [], "hello") := by
  refine ⟨?_, ?_, ?_⟩
  · have h := C8_press_printable_policy.1 inputLocEmpty (Elem.mk inputTreeEmpty []) "F"
      (KeyEvent.mk "F" 70) (by decide) (by decide) (by decide)
    rw [h]
    rw [show (if isPrintable (KeyEvent.mk "F" 70).keyCode then
      (Elem.mk inputTreeEmpty []).value ++ (KeyEvent.mk "F" 70).key
      else (Elem.mk inputTreeEmpty []).value) = "F" from by decide]
  · have h := C8_press_printable_policy.1 inputLocF (Elem.mk inputTreeF []) "Enter"
      (KeyEvent.mk "Enter" 13) (by decide) (by decide) (by decide)
    rw [h]
    rw [show (if isPrintable (KeyEvent.mk "Enter" 13).keyCode then
      (Elem.mk inputTreeF []).value ++ (KeyEvent.mk "Enter" 13).key
      else (Elem.mk inputTreeF []).value) = "F" from by decide]
  · exact C8_press_printable_policy.2.1 inputLocF (Elem.mk inputTreeF []) "hello"
      (by decide) (by decide)
